import Mathlib

/-!
Verification of the K-dexter MCP gateway core (registry, policy, logging,
gateway routing, session transport) against its natural-language design
document.  The definitions below are shallow embeddings of the TypeScript
sources under `src/mcp-gateway/`:

* `PolicyService.*`   — `mcp-gateway/policy/service.ts`
* `RegistryService.*` — `mcp-gateway/registry/service.ts`
* `LoggingService.*`  — `mcp-gateway/logging/service.ts`
* `GatewayService.*`  — `mcp-gateway/core/gateway.ts`
* session open        — `mcp-gateway/api/mcp.ts` (GET /sse handler)

Durable SQLite tables are modelled as Lean lists of rows; asynchronous
outcomes (native tool invocations, downstream connects, downstream call
attempts) are supplied by an explicit environment so that the control flow
of the TypeScript can be reproduced exactly.
-/

namespace KDexter

/-! ## Policy component (`policy/service.ts` and `policy/schema.ts`) -/

/-- A row of the `api_keys` table. -/
structure ApiKey where
  id : Nat
  key : String
  name : String
  role : String
  is_active : Bool
deriving DecidableEq, Repr

/-- A row of the `policies` table: `role`, `resource` (a `server:tool`
pattern) and `action` (`"allow"` or `"deny"`). -/
structure PolicyRule where
  role : String
  resource : String
  action : String
deriving DecidableEq, Repr

/-- `PolicyService.verifyApiKey`: `SELECT * FROM api_keys WHERE key = ? AND
is_active = 1`, returning the row or `null`. -/
def PolicyService.verifyApiKey (apiKeys : List ApiKey) (key : String) : Option ApiKey :=
  apiKeys.find? (fun r => r.key = key && r.is_active)

/-- JavaScript `String.prototype.split` with a one-character separator,
written over the character list (auxiliary loop). -/
def jsSplitAux (sep : Char) : List Char → List Char → List (List Char)
  | [], acc => [acc.reverse]
  | c :: rest, acc =>
      if c = sep then acc.reverse :: jsSplitAux sep rest []
      else jsSplitAux sep rest (c :: acc)

/-- JavaScript `s.split(sep)` for a one-character separator: always returns
at least one chunk, and `"".split` returns `[""]`, exactly as in JS. -/
def jsSplit (sep : Char) (s : String) : List String :=
  (jsSplitAux sep s.data []).map String.mk

/-- `PolicyService.matches(pattern, target)`: the wildcard matcher.  In the
TypeScript, `const [pServer, pTool] = pattern.split(':')` leaves `pTool`
`undefined` when the pattern has no colon, and `!pServer` is truthy exactly
when the first chunk is the empty string; both are mirrored here with
`Option` (`l[1]?`) and an `= ""` test. -/
def PolicyService.matches (pattern target : String) : Bool :=
  if pattern = "*" then true
  else
    let pParts := jsSplit ':' pattern
    let tParts := jsSplit ':' target
    let pServer := pParts.headD ""
    let pTool := pParts[1]?
    let tServer := tParts.headD ""
    let tTool := tParts[1]?
    if pServer = "" || tServer = "" then false
    else
      let serverMatch := pServer = "*" || pServer = tServer
      let toolMatch := pTool = some "*" || pTool = tTool
      serverMatch && toolMatch

/-- `PolicyService.canAccess(role, serverName, toolName)`: fetch all `allow`
rules for the role (`SELECT resource FROM policies WHERE role = ? AND
action = 'allow'`) and test each against `serverName:toolName`. -/
def PolicyService.canAccess (policies : List PolicyRule) (role serverName toolName : String) : Bool :=
  let resource := serverName ++ ":" ++ toolName
  let rolePolicies := policies.filter (fun p => p.role = role && p.action = "allow")
  rolePolicies.any (fun p => PolicyService.matches p.resource resource)

/-- The access predicate exactly as the specification words it: some allow
rule for the role has pattern `*`, or has a pattern whose server side is `*`
or equals the server name and whose tool side is `*` or equals the tool
name.  (Stated from the spec, to be compared with
`PolicyService.canAccess`.) -/
def specGrantsAccess (policies : List PolicyRule) (role serverName toolName : String) : Bool :=
  policies.any (fun p =>
    p.role = role && p.action = "allow" &&
    (p.resource = "*" ||
      (let sides := jsSplit ':' p.resource
       let pServer := sides.headD ""
       let pTool := sides[1]?
       (pServer = "*" || pServer = serverName) &&
       (pTool = some "*" || pTool = some toolName))))

/-- A string is colon-free when none of its characters is `':'`. -/
def colonFree (s : String) : Prop := ':' ∉ s.data

instance (s : String) : Decidable (colonFree s) := by
  unfold colonFree; infer_instance

/-! ## Registry component (`registry/service.ts` and `registry/schema.ts`) -/

/-- A row of the `mcp_servers` table.  `config` holds the JSON-serialized
connection details (the service stores `JSON.stringify(config)`); timestamps
are abstract clock values. -/
structure MCPServer where
  id : Nat
  name : String
  transport_type : String
  config : String
  status : String
  created_at : Nat
  updated_at : Nat
deriving DecidableEq, Repr

/-- A row of the `mcp_tools` table (the autoincrement surrogate id is never
consulted by any query in the sources and is omitted). -/
structure MCPTool where
  server_id : Nat
  name : String
  description : String
  input_schema : String
deriving DecidableEq, Repr

/-- A tool as passed to `updateTools`: the service inserts `tool.name`,
`tool.description || ''` and `JSON.stringify(tool.inputSchema)`. -/
structure ToolSpec where
  name : String
  description : Option String
  inputSchema : String
deriving DecidableEq, Repr

/-- The durable registry state: the two tables plus the autoincrement
counter for `mcp_servers.id`. -/
structure RegistryState where
  servers : List MCPServer
  tools : List MCPTool
  nextServerId : Nat
deriving DecidableEq, Repr

/-- Field update performed by the `ON CONFLICT(name) DO UPDATE SET
transport_type = excluded.transport_type, config = excluded.config,
updated_at = CURRENT_TIMESTAMP` clause, applied to the row whose unique
`name` conflicts. -/
def updateServerRow (n ttype config : String) (now : Nat) (s : MCPServer) : MCPServer :=
  if s.name = n then { s with transport_type := ttype, config := config, updated_at := now }
  else s

/-- `RegistryService.registerServer(name, type, config)`: `INSERT ... ON
CONFLICT(name) DO UPDATE ... RETURNING id`.  `now` is the database clock
(`CURRENT_TIMESTAMP`).  Returns the new state and the returned id. -/
def RegistryService.registerServer (st : RegistryState) (now : Nat) (name ttype config : String) :
    RegistryState × Nat :=
  match st.servers.find? (fun s => s.name = name) with
  | some s0 =>
      ({ st with servers := st.servers.map (updateServerRow name ttype config now) }, s0.id)
  | none =>
      let srv : MCPServer :=
        { id := st.nextServerId, name := name, transport_type := ttype, config := config,
          status := "active", created_at := now, updated_at := now }
      ({ st with servers := st.servers ++ [srv], nextServerId := st.nextServerId + 1 }, srv.id)

/-- `RegistryService.getServer(name)`: `SELECT * FROM mcp_servers WHERE
name = ?`. -/
def RegistryService.getServer (st : RegistryState) (name : String) : Option MCPServer :=
  st.servers.find? (fun s => s.name = name)

/-- The row inserted by `updateTools` for one incoming tool. -/
def toolRow (serverId : Nat) (t : ToolSpec) : MCPTool :=
  { server_id := serverId, name := t.name, description := t.description.getD "",
    input_schema := t.inputSchema }

/-- The insert loop inside the `updateTools` transaction.  `failAt = some i`
means the `i`-th `insert.run` throws (e.g. a constraint violation); the
exception aborts the transaction, modelled by returning `none`. -/
def insertToolsLoop (serverId : Nat) : RegistryState → List ToolSpec → Nat → Option Nat →
    Option RegistryState
  | st, [], _, _ => some st
  | st, t :: rest, i, failAt =>
      if failAt = some i then none
      else insertToolsLoop serverId
        { st with tools := st.tools ++ [toolRow serverId t] } rest (i + 1) failAt

/-- `RegistryService.updateTools(serverId, tools)`: inside one
`db.transaction`, `DELETE FROM mcp_tools WHERE server_id = ?` then insert
each tool.  SQLite transaction semantics: if the body throws, every write
is rolled back and the pre-transaction state is kept. -/
def RegistryService.updateTools (st : RegistryState) (serverId : Nat) (tools : List ToolSpec)
    (failAt : Option Nat) : RegistryState :=
  let afterDelete := { st with tools := st.tools.filter (fun t => ¬ t.server_id = serverId) }
  match insertToolsLoop serverId afterDelete tools 0 failAt with
  | some st2 => st2
  | none => st

/-- A row of the `getAllTools` join result. -/
structure ToolJoinRow where
  tool_name : String
  description : String
  input_schema : String
  server_name : String
  transport_type : String
deriving DecidableEq, Repr

/-- `RegistryService.getAllTools()`: `SELECT t.name, t.description,
t.input_schema, s.name, s.transport_type FROM mcp_tools t JOIN mcp_servers s
ON t.server_id = s.id WHERE s.status = 'active'`. -/
def RegistryService.getAllTools (st : RegistryState) : List ToolJoinRow :=
  st.tools.filterMap (fun t =>
    match st.servers.find? (fun s => s.id = t.server_id && s.status = "active") with
    | some s => some { tool_name := t.name, description := t.description,
                       input_schema := t.input_schema, server_name := s.name,
                       transport_type := s.transport_type }
    | none => none)

/-! ## Observability log (`logging/service.ts` and `logging/schema.ts`) -/

/-- A row of the `call_logs` table (its autoincrement `id` and
`CURRENT_TIMESTAMP` column are never read back by `logCall`/`getStats` and
are omitted; `error_message` is a nullable TEXT column). -/
structure CallLogEntry where
  session_id : String
  role : String
  server_name : String
  tool_name : String
  status : String
  latency_ms : Nat
  error_message : Option String
deriving DecidableEq, Repr

/-- The JavaScript `errorMessage || null` coercion used by `logCall`: an
absent or empty (falsy) message is stored as NULL. -/
def jsOrNull (errorMessage : Option String) : Option String :=
  match errorMessage with
  | some m => if m = "" then none else some m
  | none => none

/-- `LoggingService.logCall(sessionId, role, serverName, toolName, status,
latencyMs, errorMessage?)`: a single `INSERT INTO call_logs (session_id,
role, server_name, tool_name, status, latency_ms, error_message) VALUES
(?, ?, ?, ?, ?, ?, ?)` binding `errorMessage || null`.  The table is the
list of rows in insertion order. -/
def LoggingService.logCall (log : List CallLogEntry) (sessionId role serverName toolName status : String)
    (latencyMs : Nat) (errorMessage : Option String) : List CallLogEntry :=
  log ++ [{ session_id := sessionId, role := role, server_name := serverName,
            tool_name := toolName, status := status, latency_ms := latencyMs,
            error_message := jsOrNull errorMessage }]

/-- The integral aggregates returned by `getStats`: `total_calls` and
`error_count`.  The derived floating-point fields of the TypeScript result
(`success_rate`, a `toFixed(2)` string, and `avg_latency_ms`, a SQL `AVG`)
are floating-point/format artifacts and are not part of the model. -/
structure CallStats where
  total_calls : Nat
  error_count : Nat
deriving DecidableEq, Repr

/-- `LoggingService.getStats()`: `total_calls` is `SELECT COUNT(*) FROM
call_logs` and `error_count` is `SELECT COUNT(*) FROM call_logs WHERE
status = 'error'`, computed on demand. -/
def LoggingService.getStats (log : List CallLogEntry) : CallStats :=
  { total_calls := log.length,
    error_count := (log.filter (fun e => e.status = "error")).length }

/-! ## Gateway routing core (`core/gateway.ts`) -/

/-- `const MAX_RETRIES = 2` in `callTool`. -/
def MAX_RETRIES : Nat := 2

/-- `const TIMEOUT_MS = 30000` in `callTool`. -/
def TIMEOUT_MS : Nat := 30000

/-- The behaviour of one downstream `client.request` attempt: how long it
takes to settle and what it settles to (a result payload or an error
message). -/
structure AttemptBehavior where
  duration : Nat
  outcome : Except String String
deriving Repr

/-- One attempt of the `Promise.race([client.request(...), timeoutPromise])`:
if the request has not settled when the 30-second timer fires, the race is
lost and the attempt fails with the timeout message. -/
def raceAttempt (a : AttemptBehavior) : Except String String :=
  if TIMEOUT_MS ≤ a.duration then
    Except.error ("Tool execution timed out after " ++ toString TIMEOUT_MS ++ "ms")
  else a.outcome

/-- Observable trace of the retry loop: the index of the last attempt made,
the backoff delays awaited (in milliseconds, in order), and the final
result. -/
structure RetryTrace where
  attemptsUsed : Nat
  delays : List Nat
  result : Except String String
deriving Repr

/-- The `for (let attempt = 1; attempt <= MAX_RETRIES + 1; attempt++)` loop
of `callTool` step 5.  `rem` is the number of retries still permitted
(`MAX_RETRIES + 1 - attempt`); on failure with retries left the code awaits
`setTimeout(r, 1000 * attempt)` and continues, otherwise the loop ends and
the last error is thrown. -/
def retryGo (attempts : Nat → AttemptBehavior) : Nat → Nat → RetryTrace
  | attempt, rem =>
    match raceAttempt (attempts attempt) with
    | Except.ok r => { attemptsUsed := attempt, delays := [], result := Except.ok r }
    | Except.error e =>
      match rem with
      | 0 => { attemptsUsed := attempt, delays := [], result := Except.error e }
      | rem' + 1 =>
        let rest := retryGo attempts (attempt + 1) rem'
        { attemptsUsed := rest.attemptsUsed, delays := 1000 * attempt :: rest.delays,
          result := rest.result }

/-- The whole retry phase: attempts start at 1 with `MAX_RETRIES` retries
remaining. -/
def forwardWithRetry (attempts : Nat → AttemptBehavior) : RetryTrace :=
  retryGo attempts 1 MAX_RETRIES

/-- The dynamic environment of one `callTool` invocation: the native tool
registry (`getToolRegistry('native')` names), the outcome of invoking the
owning native tool with the given arguments, the outcome of
`connectToDownstream`, the behaviour of each downstream attempt, and the
measured latency value recorded in log rows. -/
structure GatewayEnv where
  nativeNames : List String
  nativeInvoke : Except String String
  connect : Except String Unit
  attempts : Nat → AttemptBehavior
  lat : Nat

/-- Process-wide gateway state: the durable registry and policy tables, the
module-level `downstreamClients` cache (represented by the set of server
names holding a live client), and the call log. -/
structure GatewayState where
  registry : RegistryState
  policies : List PolicyRule
  clients : List String
  log : List CallLogEntry

/-- Result of one `callTool` invocation: the value returned or error thrown,
plus the updated connection cache and call log. -/
structure CallResult where
  result : Except String String
  clients : List String
  log : List CallLogEntry

/-- Steps 5 of `callTool`: forward the call with retry and timeout, then log
the terminal outcome (success logs once and returns; exhaustion throws the
last error, which the outer catch logs as `Execution failed: ...` and
rethrows). -/
def runForward (env : GatewayEnv) (serverName toolName role sessionId : String)
    (clients : List String) (log : List CallLogEntry) : CallResult :=
  let tr := forwardWithRetry env.attempts
  match tr.result with
  | Except.ok r =>
      { result := Except.ok r, clients := clients,
        log := LoggingService.logCall log sessionId role serverName toolName "success" env.lat none }
  | Except.error e =>
      { result := Except.error e, clients := clients,
        log := LoggingService.logCall log sessionId role serverName toolName "error" env.lat
                 (some ("Execution failed: " ++ e)) }

/-- `GatewayService.callTool(toolName, args, role, sessionId)`.  The branch
structure follows `gateway.ts` lines 102-227: resolve the owner among the
registry join and the native registry; check policy; dispatch natively or
obtain/create the cached downstream client and forward with retry.  Every
`throw` inside the outer `try` is caught by the outer `catch`, which logs an
`Execution failed: ...` row against the current `serverName` binding and
rethrows the same error. -/
def GatewayService.callTool (st : GatewayState) (env : GatewayEnv)
    (toolName role sessionId : String) : CallResult :=
  let dbTools := RegistryService.getAllTools st.registry
  let allTools : List (String × String × String) :=
    dbTools.map (fun r => (r.tool_name, r.server_name, r.transport_type))
      ++ env.nativeNames.map (fun n => (n, "k-dexter-native", "native"))
  match allTools.find? (fun t => t.1 = toolName) with
  | none =>
      let msg := "Tool not found: " ++ toolName
      let log1 := LoggingService.logCall st.log sessionId role "unknown" toolName "error" env.lat
                    (some msg)
      let log2 := LoggingService.logCall log1 sessionId role "unknown" toolName "error" env.lat
                    (some ("Execution failed: " ++ msg))
      { result := Except.error msg, clients := st.clients, log := log2 }
  | some rec0 =>
      let serverName := rec0.2.1
      if ¬ PolicyService.canAccess st.policies role serverName toolName then
        let msg := "Access Denied: Role '" ++ role ++ "' cannot access tool '" ++ toolName ++ "'"
        let log1 := LoggingService.logCall st.log sessionId role serverName toolName "error" env.lat
                      (some ("Access Denied: Role '" ++ role ++ "'"))
        let log2 := LoggingService.logCall log1 sessionId role serverName toolName "error" env.lat
                      (some ("Execution failed: " ++ msg))
        { result := Except.error msg, clients := st.clients, log := log2 }
      else if rec0.2.2 = "native" then
        if toolName ∈ env.nativeNames then
          match env.nativeInvoke with
          | Except.ok r =>
              { result := Except.ok r, clients := st.clients,
                log := LoggingService.logCall st.log sessionId role serverName toolName "success"
                         env.lat none }
          | Except.error e =>
              { result := Except.error e, clients := st.clients,
                log := LoggingService.logCall st.log sessionId role serverName toolName "error"
                         env.lat (some ("Execution failed: " ++ e)) }
        else
          let msg := "Native tool logic not found for " ++ toolName
          { result := Except.error msg, clients := st.clients,
            log := LoggingService.logCall st.log sessionId role serverName toolName "error" env.lat
                     (some ("Execution failed: " ++ msg)) }
      else
        if serverName ∈ st.clients then
          runForward env serverName toolName role sessionId st.clients st.log
        else
          match RegistryService.getServer st.registry serverName with
          | none =>
              let e := "Server config not found for " ++ serverName
              let wrapped := "Failed to connect to downstream server " ++ serverName ++ ": Error: " ++ e
              let log1 := LoggingService.logCall st.log sessionId role serverName toolName "error"
                            env.lat (some ("Connection failed: " ++ e))
              let log2 := LoggingService.logCall log1 sessionId role serverName toolName "error"
                            env.lat (some ("Execution failed: " ++ wrapped))
              { result := Except.error wrapped, clients := st.clients, log := log2 }
          | some _ =>
              match env.connect with
              | Except.error e =>
                  let wrapped := "Failed to connect to downstream server " ++ serverName ++ ": Error: " ++ e
                  let log1 := LoggingService.logCall st.log sessionId role serverName toolName "error"
                                env.lat (some ("Connection failed: " ++ e))
                  let log2 := LoggingService.logCall log1 sessionId role serverName toolName "error"
                                env.lat (some ("Execution failed: " ++ wrapped))
                  { result := Except.error wrapped, clients := st.clients, log := log2 }
              | Except.ok _ =>
                  runForward env serverName toolName role sessionId (st.clients ++ [serverName]) st.log

/-! ### Native schema translation (`zodToJsonSchema` in `gateway.ts`) -/

/-- One entry of a Zod object's `.shape`, as the reflection code observes
it: the wrapped type name, the JavaScript truthiness of the `description`
member, and the JavaScript truthiness of `val.isOptional` — on a genuine
Zod type `isOptional` is a method, so this member is a (truthy) function
value whether or not the field is optional. -/
structure ZodField where
  key : String
  typeName : String
  descriptionStr : String
  isOptionalTruthy : Bool
deriving DecidableEq, Repr

/-- The observable surface of a value passed as `zodSchema`: whether `_def`
is truthy and the `.shape` member if present. -/
structure ZodObjectSchema where
  hasDef : Bool
  shape : Option (List ZodField)
deriving DecidableEq, Repr

/-- One property of the produced JSON-schema document: key, `type` string
and `description` string. -/
structure JsonSchemaProperty where
  key : String
  type : String
  description : String
deriving DecidableEq, Repr

/-- The produced input-schema document; `required = none` models leaving the
`required` key `undefined` (omitted). -/
structure JsonSchemaDoc where
  type : String
  properties : List JsonSchemaProperty
  required : Option (List String)
deriving DecidableEq, Repr

/-- `GatewayService.zodToJsonSchema(zodSchema)` from `gateway.ts` lines
59-99, including the `typeName !== 'ZodOptional' && !val.isOptional` test
and the `required.length > 0 ? required : undefined` final shape. -/
def GatewayService.zodToJsonSchema (zodSchema : Option ZodObjectSchema) : JsonSchemaDoc :=
  match zodSchema with
  | none => { type := "object", properties := [], required := none }
  | some s =>
    if ¬ s.hasDef then { type := "object", properties := [], required := none }
    else
      match s.shape with
      | none => { type := "object", properties := [], required := none }
      | some fields =>
        let properties := fields.map (fun f =>
          let ty := if f.typeName = "ZodNumber" then "number"
                    else if f.typeName = "ZodBoolean" then "boolean"
                    else if f.typeName = "ZodEnum" then "string"
                    else "string"
          { key := f.key, type := ty, description := f.descriptionStr : JsonSchemaProperty })
        let required := (fields.filter
          (fun f => f.typeName ≠ "ZodOptional" && !f.isOptionalTruthy)).map (fun f => f.key)
        { type := "object", properties := properties,
          required := if required.length > 0 then some required else none }

/-! ## Session opening (`api/mcp.ts`, GET /sse) -/

/-- The parts of the inbound request the handler reads: the `Authorization`
header and the `apiKey` query parameter.  `some ""` models a present but
empty (hence falsy) value. -/
structure SseRequest where
  authHeader : Option String
  queryKey : Option String
deriving DecidableEq, Repr

/-- JavaScript `s.startsWith(pre)` over the character sequence (the strings
involved are ASCII, so code units and characters coincide). -/
def jsStartsWith (s pre : String) : Bool := pre.data.isPrefixOf s.data

/-- JavaScript `s.substring(n)` over the character sequence. -/
def jsSubstringFrom (n : Nat) (s : String) : String := String.mk (s.data.drop n)

/-- The `apiKey` extraction at the top of the handler: a `Bearer `-prefixed
`Authorization` header wins (`apiKey = authHeader.substring(7)`), otherwise
the query parameter, otherwise the empty string.  JavaScript truthiness of
the header (`authHeader && ...`) means an empty header falls through to the
query parameter. -/
def extractApiKey (r : SseRequest) : String :=
  match r.authHeader with
  | some h =>
      if h ≠ "" ∧ jsStartsWith h "Bearer " = true then jsSubstringFrom 7 h
      else r.queryKey.getD ""
  | none => r.queryKey.getD ""

/-- The process-local session table plus the call log (which the handler
never touches). -/
structure SessionState where
  sessions : List (String × String)
  log : List CallLogEntry
deriving DecidableEq, Repr

/-- The GET /sse handler up to session creation: reject 401 when the key is
missing or fails `verifyApiKey`; otherwise mint `freshId` and add the
session with the key's role.  Returns the HTTP status and the new state. -/
def sseOpen (st : SessionState) (apiKeys : List ApiKey) (req : SseRequest) (freshId : String) :
    Nat × SessionState :=
  let apiKey := extractApiKey req
  if apiKey = "" then (401, st)
  else
    match PolicyService.verifyApiKey apiKeys apiKey with
    | none => (401, st)
    | some user => (200, { st with sessions := st.sessions ++ [(freshId, user.role)] })

/-! ## The downstream-connection cache race (`gateway.ts` lines 14-16 and
158-174)

Two concurrent `callTool` invocations for the same (uncached) server each
run `let client = downstreamClients.get(serverName); if (!client) { client
= await this.connectToDownstream(...); downstreamClients.set(serverName,
client) }`.  The `await` is a suspension point, so the cache read and the
cache write of the two calls can interleave.  The model below gives each
call a program counter and lets an explicit schedule choose which call
steps next. -/

/-- Program counter of one call inside the get-or-connect section.
`done usedCached` records whether the call ended up using the cached client
(`true`) or a connection it established itself (`false`). -/
inductive ConnPc where
  | checkCache
  | connecting
  | done (usedCached : Bool)
deriving DecidableEq, Repr

/-- Shared configuration: whether `downstreamClients` holds the server, the
two calls' program counters, and how many `connectToDownstream` invocations
have been started. -/
structure ConnRaceState where
  cached : Bool
  pc1 : ConnPc
  pc2 : ConnPc
  connectsStarted : Nat
deriving DecidableEq, Repr

/-- One scheduler step of one call: reading an empty cache moves to
`connecting` (the `connectToDownstream` promise is created, so a connect
attempt is now in flight); the connect resolving inserts into the cache and
finishes. -/
def connStep (pc : ConnPc) (cached : Bool) (connects : Nat) : ConnPc × Bool × Nat :=
  match pc with
  | ConnPc.checkCache =>
      if cached then (ConnPc.done true, cached, connects)
      else (ConnPc.connecting, cached, connects + 1)
  | ConnPc.connecting => (ConnPc.done false, true, connects)
  | ConnPc.done b => (ConnPc.done b, cached, connects)

/-- Run a schedule: `true` steps call 1, `false` steps call 2. -/
def runConnRace : ConnRaceState → List Bool → ConnRaceState
  | st, [] => st
  | st, b :: rest =>
      let st' :=
        if b then
          let r := connStep st.pc1 st.cached st.connectsStarted
          { st with pc1 := r.1, cached := r.2.1, connectsStarted := r.2.2 }
        else
          let r := connStep st.pc2 st.cached st.connectsStarted
          { st with pc2 := r.1, cached := r.2.1, connectsStarted := r.2.2 }
      runConnRace st' rest

/-- Both calls start at the cache check with an empty cache. -/
def connRaceInit : ConnRaceState :=
  { cached := false, pc1 := ConnPc.checkCache, pc2 := ConnPc.checkCache, connectsStarted := 0 }

/-! ## Shared concrete fixtures used by witnesses and counterexamples -/

/-- An empty gateway: no registered servers or tools, no policies, no cached
connections, no log rows. -/
def emptyGatewayState : GatewayState :=
  { registry := { servers := [], tools := [], nextServerId := 1 },
    policies := [], clients := [], log := [] }

/-- A benign environment: no native tools; every asynchronous step would
succeed instantly. -/
def okEnv : GatewayEnv :=
  { nativeNames := [], nativeInvoke := Except.ok "ok", connect := Except.ok (),
    attempts := fun _ => { duration := 0, outcome := Except.ok "ok" }, lat := 0 }

/-- Scenario C of the specification, executed on the model: register server
`alpha` with tools `[x]`, then register it again and replace its tools with
`[y]`. -/
def scenarioCState : RegistryState :=
  let st0 : RegistryState := { servers := [], tools := [], nextServerId := 1 }
  let r1 := RegistryService.registerServer st0 0 "alpha" "stdio" "cfg1"
  let st1 := RegistryService.updateTools r1.1 r1.2
    [{ name := "x", description := none, inputSchema := "null" }] none
  let r2 := RegistryService.registerServer st1 1 "alpha" "stdio" "cfg2"
  RegistryService.updateTools r2.1 r2.2
    [{ name := "y", description := none, inputSchema := "null" }] none

/-! ## Helper lemmas -/

theorem verifyApiKey_none_of_all_inactive (apiKeys : List ApiKey) (k : String)
    (h : ∀ r ∈ apiKeys, r.key = k → r.is_active = false) :
    PolicyService.verifyApiKey apiKeys k = none := by
  apply List.find?_eq_none.mpr
  intro r hr
  by_cases hk : r.key = k
  · simp [hk, h r hr hk]
  · simp [hk]

theorem string_append_ne_empty (s t : String) (h : ¬ s = "") : ¬ (s ++ t) = "" := by
  intro hc
  apply h
  have hd : s.data ++ t.data = [] := by
    rw [← String.data_append, hc]
  exact String.ext (List.append_eq_nil.mp hd).1

theorem any_congr_on {α : Type} (f g : α → Bool) :
    ∀ l : List α, (∀ a ∈ l, f a = g a) → l.any f = l.any g := by
  intro l
  induction l with
  | nil => intro _; rfl
  | cons x xs ih =>
      intro h
      simp only [List.any_cons, h x (by simp), ih (fun a ha => h a (by simp [ha]))]

theorem jsSplitAux_no_sep (sep : Char) (xs : List Char) (acc : List Char) (h : sep ∉ xs) :
    jsSplitAux sep xs acc = [acc.reverse ++ xs] := by
  induction xs generalizing acc with
  | nil => simp [jsSplitAux]
  | cons c rest ih =>
      have hc : ¬ c = sep := fun hcc => h (by simp [hcc])
      rw [jsSplitAux, if_neg hc, ih _ (fun hm => h (by simp [hm]))]
      simp

theorem jsSplitAux_append_sep (sep : Char) (xs ys : List Char) (acc : List Char) (h : sep ∉ xs) :
    jsSplitAux sep (xs ++ sep :: ys) acc = (acc.reverse ++ xs) :: jsSplitAux sep ys [] := by
  induction xs generalizing acc with
  | nil => simp [jsSplitAux]
  | cons c rest ih =>
      have hc : ¬ c = sep := fun hcc => h (by simp [hcc])
      rw [List.cons_append, jsSplitAux, if_neg hc, ih _ (fun hm => h (by simp [hm]))]
      simp

theorem jsSplit_sep_pair (s t : String) (hs : colonFree s) (ht : colonFree t) :
    jsSplit ':' (s ++ ":" ++ t) = [s, t] := by
  have hmk : ∀ u : String, String.mk u.data = u := fun u => by cases u; rfl
  have hdata : (s ++ ":" ++ t).data = s.data ++ ':' :: t.data := by
    simp [String.data_append]
  unfold jsSplit
  rw [hdata, jsSplitAux_append_sep ':' s.data t.data [] hs, jsSplitAux_no_sep ':' t.data [] ht]
  simp [hmk]

theorem matches_eq_spec_side (pat s t : String) (hs : ¬ s = "") (hsc : colonFree s)
    (htc : colonFree t) :
    PolicyService.matches pat (s ++ ":" ++ t) =
      (pat = "*" ||
        (((jsSplit ':' pat).headD "" = "*" || (jsSplit ':' pat).headD "" = s) &&
         ((jsSplit ':' pat)[1]? = some "*" || (jsSplit ':' pat)[1]? = some t))) := by
  unfold PolicyService.matches
  by_cases hpat : pat = "*"
  · simp [hpat]
  · rw [jsSplit_sep_pair s t hsc htc]
    cases hsplit : jsSplit ':' pat with
    | nil => simp [hpat, Ne.symm hs]
    | cons p0 prest =>
        by_cases hp0 : p0 = ""
        · subst hp0
          simp [hpat, Ne.symm hs]
        · simp [hpat, hp0, Ne.symm hs]
          exact fun _ _ => hs

/-! ## Claim C2 — wildcard access control -/

/-- C2 counterexample: with the single allow rule `a:b` for role `r`, the
code grants access to server `a:b`, tool `c` (because the target
`a:b:c` splits into sides `a` and `b`, which the pattern matches side by
side), while the claim's rule — pattern server side `*` or equal to the
server name, pattern tool side `*` or equal to the tool name — grants
nothing; so the claimed equivalence is false at this input. -/
theorem canAccess_spec_equiv_counterexample :
    PolicyService.canAccess [{ role := "r", resource := "a:b", action := "allow" }] "r" "a:b" "c"
      = true
    ∧ specGrantsAccess [{ role := "r", resource := "a:b", action := "allow" }] "r" "a:b" "c"
      = false := by decide

/-- C2 (amended): provided the server name is nonempty and neither the
server name nor the tool name contains a colon, `canAccess` returns true
exactly when some persisted allow rule for the role has pattern `*`, or has
a pattern whose server side is `*` or equals the server name and whose tool
side is `*` or equals the tool name. -/
theorem canAccess_iff_allow_rule_matches (policies : List PolicyRule) (role s t : String)
    (hs : ¬ s = "") (hsc : colonFree s) (htc : colonFree t) :
    PolicyService.canAccess policies role s t = specGrantsAccess policies role s t := by
  unfold PolicyService.canAccess specGrantsAccess
  rw [List.any_filter]
  apply any_congr_on
  intro p _
  rw [matches_eq_spec_side p.resource s t hs hsc htc]

/-- Witness for C2 (amended), realizing Scenario A of the spec: for the role
`analyst` holding only the allow rule `research:*`, the equivalence applies
to both `research:get_price` (granted) and `payment:charge` (denied). -/
theorem canAccess_iff_allow_rule_matches_witness :
    (PolicyService.canAccess [{ role := "analyst", resource := "research:*", action := "allow" }]
        "analyst" "research" "get_price"
      = specGrantsAccess [{ role := "analyst", resource := "research:*", action := "allow" }]
        "analyst" "research" "get_price")
    ∧ (PolicyService.canAccess [{ role := "analyst", resource := "research:*", action := "allow" }]
        "analyst" "payment" "charge"
      = specGrantsAccess [{ role := "analyst", resource := "research:*", action := "allow" }]
        "analyst" "payment" "charge")
    ∧ PolicyService.canAccess [{ role := "analyst", resource := "research:*", action := "allow" }]
        "analyst" "research" "get_price" = true
    ∧ PolicyService.canAccess [{ role := "analyst", resource := "research:*", action := "allow" }]
        "analyst" "payment" "charge" = false :=
  ⟨canAccess_iff_allow_rule_matches
      [{ role := "analyst", resource := "research:*", action := "allow" }]
      "analyst" "research" "get_price" (by decide) (by decide) (by decide),
   canAccess_iff_allow_rule_matches
      [{ role := "analyst", resource := "research:*", action := "allow" }]
      "analyst" "payment" "charge" (by decide) (by decide) (by decide),
   by decide, by decide⟩

theorem updateServerRow_name (n ttype config : String) (now : Nat) (s : MCPServer) :
    (updateServerRow n ttype config now s).name = s.name := by
  unfold updateServerRow
  split <;> rfl

theorem filter_map_comm_of_inv {α : Type} (f : α → α) (p : α → Bool)
    (hf : ∀ a, p (f a) = p a) : ∀ l : List α, (l.map f).filter p = (l.filter p).map f := by
  intro l
  induction l with
  | nil => rfl
  | cons x xs ih =>
      simp only [List.map_cons, List.filter_cons, hf x]
      cases hx : p x <;> simp [ih]

theorem eq_singleton_of_length_le_one_mem {α : Type} (l : List α) (a : α)
    (h1 : l.length ≤ 1) (h2 : a ∈ l) : l = [a] := by
  match l with
  | [] => cases h2
  | [x] =>
      simp only [List.mem_singleton] at h2
      rw [h2]
  | x :: y :: rest => simp at h1

/-- One `registerServer` call, on a table with at most one row named `n`,
leaves exactly one row named `n`, holding this call's transport kind,
config and timestamp. -/
theorem registerServer_filter_singleton (st : RegistryState) (now : Nat) (n tt cc : String)
    (h : (st.servers.filter (fun s => s.name = n)).length ≤ 1) :
    ∃ s : MCPServer,
      ((RegistryService.registerServer st now n tt cc).1).servers.filter (fun x => x.name = n) = [s]
      ∧ s.name = n ∧ s.transport_type = tt ∧ s.config = cc ∧ s.updated_at = now := by
  have hupd : ∀ (x : MCPServer),
      (fun y => decide (y.name = n)) (updateServerRow n tt cc now x)
        = (fun y => decide (y.name = n)) x := by
    intro x
    simp [updateServerRow_name]
  unfold RegistryService.registerServer
  cases hf : st.servers.find? (fun s => s.name = n) with
  | none =>
      have hfilter : st.servers.filter (fun x => decide (x.name = n)) = [] := by
        apply List.filter_eq_nil_iff.mpr
        intro x hx
        simpa using List.find?_eq_none.mp hf x hx
      refine ⟨{ id := st.nextServerId, name := n, transport_type := tt, config := cc,
                status := "active", created_at := now, updated_at := now }, ?_, rfl, rfl, rfl, rfl⟩
      simp only
      rw [List.filter_append, hfilter]
      simp
  | some s0 =>
      have hs0 : s0.name = n := by simpa using List.find?_some hf
      have hmem : s0 ∈ st.servers := List.mem_of_find?_eq_some hf
      have hfilter : st.servers.filter (fun x => decide (x.name = n)) = [s0] :=
        eq_singleton_of_length_le_one_mem _ _ h (List.mem_filter.mpr ⟨hmem, by simp [hs0]⟩)
      refine ⟨updateServerRow n tt cc now s0, ?_, ?_, ?_, ?_, ?_⟩
      · simp only
        rw [filter_map_comm_of_inv _ _ hupd, hfilter]
        rfl
      · rw [updateServerRow_name, hs0]
      · simp [updateServerRow, hs0]
      · simp [updateServerRow, hs0]
      · simp [updateServerRow, hs0]

/-! ## Claim C5 — server registration is an idempotent upsert -/

/-- C5: registering the same name twice (with arbitrary other rows present,
subject to the table's uniqueness of `name`) leaves exactly one row for
that name, carrying the second call's transport kind and config and the
second call's timestamp in `updated_at`. -/
theorem registerServer_idempotent_upsert (st : RegistryState) (now1 now2 : Nat)
    (n t1 c1 t2 c2 : String)
    (h : (st.servers.filter (fun s => s.name = n)).length ≤ 1) :
    ∃ s : MCPServer,
      ((RegistryService.registerServer
          (RegistryService.registerServer st now1 n t1 c1).1 now2 n t2 c2).1).servers.filter
            (fun x => x.name = n) = [s]
      ∧ s.name = n ∧ s.transport_type = t2 ∧ s.config = c2 ∧ s.updated_at = now2 := by
  obtain ⟨s1, hf1, -, -, -, -⟩ := registerServer_filter_singleton st now1 n t1 c1 h
  exact registerServer_filter_singleton
    (RegistryService.registerServer st now1 n t1 c1).1 now2 n t2 c2 (by rw [hf1]; simp)

/-- Witness for C5: on an empty table, registering `beta` twice leaves one
row with the second transport kind, config and timestamp. -/
theorem registerServer_idempotent_upsert_witness :
    ∃ s : MCPServer,
      ((RegistryService.registerServer
          (RegistryService.registerServer { servers := [], tools := [], nextServerId := 1 }
            10 "beta" "stdio" "c1").1 20 "beta" "sse" "c2").1).servers.filter
            (fun x => x.name = "beta") = [s]
      ∧ s.name = "beta" ∧ s.transport_type = "sse" ∧ s.config = "c2" ∧ s.updated_at = 20 :=
  registerServer_idempotent_upsert { servers := [], tools := [], nextServerId := 1 }
    10 20 "beta" "stdio" "c1" "sse" "c2" (by decide)

/-- The insert loop of the `updateTools` transaction either aborts or
appends exactly the incoming rows to the shadow state, touching nothing
else. -/
theorem insertToolsLoop_cases (serverId : Nat) :
    ∀ (tools : List ToolSpec) (st : RegistryState) (i : Nat) (failAt : Option Nat),
      insertToolsLoop serverId st tools i failAt = none
      ∨ insertToolsLoop serverId st tools i failAt
          = some { st with tools := st.tools ++ tools.map (toolRow serverId) } := by
  intro tools
  induction tools with
  | nil =>
      intro st i failAt
      right
      simp [insertToolsLoop]
  | cons t rest ih =>
      intro st i failAt
      by_cases hfail : failAt = some i
      · left
        simp [insertToolsLoop, hfail]
      · rcases ih { st with tools := st.tools ++ [toolRow serverId t] } (i + 1) failAt with hr | hr
        · left
          simp [insertToolsLoop, hfail, hr]
        · right
          simp only [insertToolsLoop, if_neg hfail, hr]
          simp

/-- With no failure injected, the insert loop completes and appends exactly
the incoming rows. -/
theorem insertToolsLoop_none (serverId : Nat) :
    ∀ (tools : List ToolSpec) (st : RegistryState) (i : Nat),
      insertToolsLoop serverId st tools i none
        = some { st with tools := st.tools ++ tools.map (toolRow serverId) } := by
  intro tools
  induction tools with
  | nil =>
      intro st i
      simp [insertToolsLoop]
  | cons t rest ih =>
      intro st i
      simp only [insertToolsLoop, reduceCtorEq, if_false, ih]
      simp

/-- The forwarding phase (step 5) always appends exactly one log row. -/
theorem runForward_appends_one (env : GatewayEnv) (sn tn rl sid : String)
    (cl : List String) (lg : List CallLogEntry) :
    ∃ e, (runForward env sn tn rl sid cl lg).log = lg ++ [e] := by
  cases h : (forwardWithRetry env.attempts).result with
  | ok r =>
      simp only [runForward, h, LoggingService.logCall]
      exact ⟨_, rfl⟩
  | error e =>
      simp only [runForward, h, LoggingService.logCall]
      exact ⟨_, rfl⟩

/-! ## Claim C1 — log rows per callTool invocation -/

/-- C1 counterexample: calling a tool that exists nowhere, on an empty
gateway, writes two `CallLogEntry` rows (the not-found site logs, then the
outer catch-all logs the rethrown error again) — not exactly one. -/
theorem callTool_single_log_counterexample :
    (GatewayService.callTool emptyGatewayState okEnv "nosuch" "user" "s1").log.length = 2
    ∧ ¬ (GatewayService.callTool emptyGatewayState okEnv "nosuch" "user" "s1").log.length = 1 := by
  decide

/-- C1 (amended): every `callTool` invocation, whatever the outcome,
appends at least one and at most two log rows; the pre-existing log is
preserved as a prefix; success appends exactly one row; exactly two rows
are appended precisely on the tool-not-found, authorization-denial and
connection-failure outcomes (where the failure site logs and the catch-all
logs the rethrown error again), so every other outcome — success, native
execution failure, missing native logic, retry exhaustion — appends exactly
one; and `getStats().total_calls` equals the number of log rows. -/
theorem callTool_appends_one_or_two_rows (st : GatewayState) (env : GatewayEnv)
    (toolName role sessionId : String) :
    let out := GatewayService.callTool st env toolName role sessionId
    let owner := ((RegistryService.getAllTools st.registry).map
          (fun r => (r.tool_name, r.server_name, r.transport_type))
        ++ env.nativeNames.map (fun n => (n, "k-dexter-native", "native"))).find?
          (fun t => t.1 = toolName)
    (out.log.length = st.log.length + 1 ∨ out.log.length = st.log.length + 2)
    ∧ out.log.take st.log.length = st.log
    ∧ (∀ r, out.result = Except.ok r → out.log.length = st.log.length + 1)
    ∧ (out.log.length = st.log.length + 2 ↔
        owner = none
        ∨ (∃ rec0, owner = some rec0
            ∧ ¬ PolicyService.canAccess st.policies role rec0.2.1 toolName)
        ∨ (∃ rec0, owner = some rec0
            ∧ PolicyService.canAccess st.policies role rec0.2.1 toolName
            ∧ ¬ rec0.2.2 = "native" ∧ rec0.2.1 ∉ st.clients
            ∧ (RegistryService.getServer st.registry rec0.2.1 = none
                ∨ ∃ e, env.connect = Except.error e)))
    ∧ (LoggingService.getStats out.log).total_calls = out.log.length := by
  dsimp only
  simp only [GatewayService.callTool]
  cases hf : ((RegistryService.getAllTools st.registry).map
        (fun r => (r.tool_name, r.server_name, r.transport_type))
      ++ env.nativeNames.map (fun n => (n, "k-dexter-native", "native"))).find?
        (fun t => t.1 = toolName) with
  | none =>
      -- tool not found: failure site plus catch-all, two rows
      dsimp only
      refine ⟨Or.inr ?_, ?_, ?_, iff_of_true ?_ (Or.inl rfl), rfl⟩
      · simp [LoggingService.logCall]
      · simp only [LoggingService.logCall]
        rw [List.append_assoc]
        exact List.take_left _ _
      · intro r hr
        simp at hr
      · simp [LoggingService.logCall]
  | some rec0 =>
      dsimp only
      by_cases hacc : PolicyService.canAccess st.policies role rec0.2.1 toolName = true
      · rw [if_neg (not_not_intro hacc)]
        by_cases hnat : rec0.2.2 = "native"
        · rw [if_pos hnat]
          have hrhs : ¬ ((some rec0 = none)
              ∨ (∃ r', some rec0 = some r'
                  ∧ ¬ PolicyService.canAccess st.policies role r'.2.1 toolName = true)
              ∨ (∃ r', some rec0 = some r'
                  ∧ PolicyService.canAccess st.policies role r'.2.1 toolName = true
                  ∧ ¬ r'.2.2 = "native" ∧ r'.2.1 ∉ st.clients
                  ∧ (RegistryService.getServer st.registry r'.2.1 = none
                      ∨ ∃ e, env.connect = Except.error e))) := by
            rintro (hn | ⟨r', hr', hc⟩ | ⟨r', hr', -, hn', -, -⟩)
            · cases hn
            · cases hr'
              exact hc hacc
            · cases hr'
              exact hn' hnat
          by_cases hmem : toolName ∈ env.nativeNames
          · rw [if_pos hmem]
            cases hinv : env.nativeInvoke with
            | ok r =>
                dsimp only
                refine ⟨Or.inl ?_, ?_, ?_, iff_of_false ?_ hrhs, rfl⟩
                · simp [LoggingService.logCall]
                · simp only [LoggingService.logCall]
                  exact List.take_left _ _
                · intro r' hr'
                  simp [LoggingService.logCall]
                · simp [LoggingService.logCall]
            | error e =>
                dsimp only
                refine ⟨Or.inl ?_, ?_, ?_, iff_of_false ?_ hrhs, rfl⟩
                · simp [LoggingService.logCall]
                · simp only [LoggingService.logCall]
                  exact List.take_left _ _
                · intro r' hr'
                  simp at hr'
                · simp [LoggingService.logCall]
          · rw [if_neg hmem]
            dsimp only
            refine ⟨Or.inl ?_, ?_, ?_, iff_of_false ?_ hrhs, rfl⟩
            · simp [LoggingService.logCall]
            · simp only [LoggingService.logCall]
              exact List.take_left _ _
            · intro r' hr'
              simp at hr'
            · simp [LoggingService.logCall]
        · rw [if_neg hnat]
          by_cases hcl : rec0.2.1 ∈ st.clients
          · rw [if_pos hcl]
            obtain ⟨e, he⟩ :=
              runForward_appends_one env rec0.2.1 toolName role sessionId st.clients st.log
            have hrhs : ¬ ((some rec0 = none)
                ∨ (∃ r', some rec0 = some r'
                    ∧ ¬ PolicyService.canAccess st.policies role r'.2.1 toolName = true)
                ∨ (∃ r', some rec0 = some r'
                    ∧ PolicyService.canAccess st.policies role r'.2.1 toolName = true
                    ∧ ¬ r'.2.2 = "native" ∧ r'.2.1 ∉ st.clients
                    ∧ (RegistryService.getServer st.registry r'.2.1 = none
                        ∨ ∃ e2, env.connect = Except.error e2))) := by
              rintro (hn | ⟨r', hr', hc⟩ | ⟨r', hr', -, -, hcl', -⟩)
              · cases hn
              · cases hr'
                exact hc hacc
              · cases hr'
                exact hcl' hcl
            refine ⟨Or.inl ?_, ?_, ?_, iff_of_false ?_ hrhs, rfl⟩
            · rw [he]
              simp
            · rw [he]
              exact List.take_left _ _
            · intro r' hr'
              rw [he]
              simp
            · rw [he]
              simp
          · rw [if_neg hcl]
            cases hgs : RegistryService.getServer st.registry rec0.2.1 with
            | none =>
                dsimp only
                refine ⟨Or.inr ?_, ?_, ?_,
                  iff_of_true ?_ (Or.inr (Or.inr ⟨rec0, rfl, hacc, hnat, hcl, Or.inl hgs⟩)), rfl⟩
                · simp [LoggingService.logCall]
                · simp only [LoggingService.logCall]
                  rw [List.append_assoc]
                  exact List.take_left _ _
                · intro r' hr'
                  simp at hr'
                · simp [LoggingService.logCall]
            | some cfg =>
                cases hco : env.connect with
                | error e =>
                    dsimp only
                    refine ⟨Or.inr ?_, ?_, ?_,
                      iff_of_true ?_
                        (Or.inr (Or.inr ⟨rec0, rfl, hacc, hnat, hcl, Or.inr ⟨e, rfl⟩⟩)), rfl⟩
                    · simp [LoggingService.logCall]
                    · simp only [LoggingService.logCall]
                      rw [List.append_assoc]
                      exact List.take_left _ _
                    · intro r' hr'
                      simp at hr'
                    · simp [LoggingService.logCall]
                | ok u =>
                    dsimp only
                    obtain ⟨e, he⟩ := runForward_appends_one env rec0.2.1 toolName role sessionId
                      (st.clients ++ [rec0.2.1]) st.log
                    have hrhs : ¬ ((some rec0 = none)
                        ∨ (∃ r', some rec0 = some r'
                            ∧ ¬ PolicyService.canAccess st.policies role r'.2.1 toolName = true)
                        ∨ (∃ r', some rec0 = some r'
                            ∧ PolicyService.canAccess st.policies role r'.2.1 toolName = true
                            ∧ ¬ r'.2.2 = "native" ∧ r'.2.1 ∉ st.clients
                            ∧ (RegistryService.getServer st.registry r'.2.1 = none
                                ∨ ∃ e2 : String,
                                    (Except.ok u : Except String Unit) = Except.error e2))) := by
                      rintro (hn | ⟨r', hr', hc⟩ | ⟨r', hr', -, -, -, hgs' | ⟨e2, he2⟩⟩)
                      · cases hn
                      · cases hr'
                        exact hc hacc
                      · cases hr'
                        rw [hgs] at hgs'
                        cases hgs'
                      · cases he2
                    refine ⟨Or.inl ?_, ?_, ?_, iff_of_false ?_ hrhs, rfl⟩
                    · rw [he]
                      simp
                    · rw [he]
                      exact List.take_left _ _
                    · intro r' hr'
                      rw [he]
                      simp
                    · rw [he]
                      simp
      · rw [if_pos hacc]
        dsimp only
        refine ⟨Or.inr ?_, ?_, ?_, iff_of_true ?_ (Or.inr (Or.inl ⟨rec0, rfl, hacc⟩)), rfl⟩
        · simp [LoggingService.logCall]
        · simp only [LoggingService.logCall]
          rw [List.append_assoc]
          exact List.take_left _ _
        · intro r hr
          simp at hr
        · simp [LoggingService.logCall]

/-- Witness for C1 (amended): a successful native call on a permissive
gateway appends exactly one row. -/
theorem callTool_appends_one_or_two_rows_witness :
    ((GatewayService.callTool
        { registry := { servers := [], tools := [], nextServerId := 1 },
          policies := [{ role := "admin", resource := "*", action := "allow" }],
          clients := [], log := [] }
        { nativeNames := ["get_kr_price"], nativeInvoke := Except.ok "72000",
          connect := Except.ok (), attempts := fun _ => { duration := 0, outcome := Except.ok "ok" },
          lat := 3 }
        "get_kr_price" "admin" "s7").log.length = 0 + 1
      ∨ (GatewayService.callTool
        { registry := { servers := [], tools := [], nextServerId := 1 },
          policies := [{ role := "admin", resource := "*", action := "allow" }],
          clients := [], log := [] }
        { nativeNames := ["get_kr_price"], nativeInvoke := Except.ok "72000",
          connect := Except.ok (), attempts := fun _ => { duration := 0, outcome := Except.ok "ok" },
          lat := 3 }
        "get_kr_price" "admin" "s7").log.length = 0 + 2) :=
  (callTool_appends_one_or_two_rows
    { registry := { servers := [], tools := [], nextServerId := 1 },
      policies := [{ role := "admin", resource := "*", action := "allow" }],
      clients := [], log := [] }
    { nativeNames := ["get_kr_price"], nativeInvoke := Except.ok "72000",
      connect := Except.ok (), attempts := fun _ => { duration := 0, outcome := Except.ok "ok" },
      lat := 3 }
    "get_kr_price" "admin" "s7").1

/-! ## Claim C6 — unknown tool names fail as not-found against "unknown" -/

/-- C6: when the tool name matches no registry row and no native tool, the
call fails with the not-found error and the rows logged for the attempt
carry `serverName = "unknown"` and status `error`. -/
theorem callTool_unknown_tool_not_found (st : GatewayState) (env : GatewayEnv)
    (toolName role sessionId : String)
    (h1 : ∀ r ∈ RegistryService.getAllTools st.registry, ¬ r.tool_name = toolName)
    (h2 : toolName ∉ env.nativeNames) :
    (GatewayService.callTool st env toolName role sessionId).result
        = Except.error ("Tool not found: " ++ toolName)
    ∧ (GatewayService.callTool st env toolName role sessionId).log
        = st.log ++
          [{ session_id := sessionId, role := role, server_name := "unknown",
             tool_name := toolName, status := "error", latency_ms := env.lat,
             error_message := some ("Tool not found: " ++ toolName) },
           { session_id := sessionId, role := role, server_name := "unknown",
             tool_name := toolName, status := "error", latency_ms := env.lat,
             error_message := some ("Execution failed: " ++ ("Tool not found: " ++ toolName)) }] := by
  have hf : (((RegistryService.getAllTools st.registry).map
        (fun r => (r.tool_name, r.server_name, r.transport_type))
      ++ env.nativeNames.map (fun n => (n, "k-dexter-native", "native"))).find?
        (fun t => t.1 = toolName)) = none := by
    apply List.find?_eq_none.mpr
    intro t ht
    rcases List.mem_append.mp ht with hm | hm
    · obtain ⟨r, hr, hrt⟩ := List.mem_map.mp hm
      subst hrt
      simpa using h1 r hr
    · obtain ⟨nm, hnm, hnt⟩ := List.mem_map.mp hm
      subst hnt
      simp only [decide_eq_true_eq]
      intro hcon
      exact h2 (hcon ▸ hnm)
  have hm1 : ¬ ("Tool not found: " ++ toolName) = "" :=
    string_append_ne_empty _ _ (by decide)
  have hm2 : ¬ ("Execution failed: " ++ ("Tool not found: " ++ toolName)) = "" :=
    string_append_ne_empty _ _ (by decide)
  simp only [GatewayService.callTool, hf]
  simp [LoggingService.logCall, jsOrNull, hm1, hm2]

/-- Witness for C6: calling `ghost` on the empty gateway fails as not-found. -/
theorem callTool_unknown_tool_not_found_witness :
    (GatewayService.callTool emptyGatewayState okEnv "ghost" "user" "s1").result
      = Except.error ("Tool not found: " ++ "ghost") :=
  (callTool_unknown_tool_not_found emptyGatewayState okEnv "ghost" "user" "s1"
    (by decide) (by decide)).1

/-! ## Claim C3 — bounded retry with per-attempt timeout race -/

/-- C3: the dispatch loop makes at most `MAX_RETRIES + 1 = 3` attempts; the
backoff delays awaited are exactly `1000·i` for each failed non-final
attempt `i` (proportional to the attempt number); when every attempt fails
the propagated error is the last (third) attempt's raced error, every
attempt having failed its race; when some attempt succeeds it is the first
succeeding one and all earlier attempts failed; and each attempt's race
against the fixed 30-second timer turns an overlong attempt into that
attempt's failure. -/
theorem callTool_retry_bounded (attempts : Nat → AttemptBehavior) :
    (forwardWithRetry attempts).attemptsUsed ≤ MAX_RETRIES + 1
    ∧ (forwardWithRetry attempts).delays
        = (List.range' 1 ((forwardWithRetry attempts).attemptsUsed - 1)).map (fun i => 1000 * i)
    ∧ (∀ e, (forwardWithRetry attempts).result = Except.error e →
        (forwardWithRetry attempts).attemptsUsed = MAX_RETRIES + 1
        ∧ Except.error e = raceAttempt (attempts (MAX_RETRIES + 1))
        ∧ ∀ i, 1 ≤ i → i ≤ MAX_RETRIES + 1 → ∃ e2, raceAttempt (attempts i) = Except.error e2)
    ∧ (∀ r, (forwardWithRetry attempts).result = Except.ok r →
        raceAttempt (attempts (forwardWithRetry attempts).attemptsUsed) = Except.ok r
        ∧ ∀ i, 1 ≤ i → i < (forwardWithRetry attempts).attemptsUsed →
            ∃ e2, raceAttempt (attempts i) = Except.error e2)
    ∧ (∀ a : AttemptBehavior, TIMEOUT_MS ≤ a.duration →
        raceAttempt a
          = Except.error ("Tool execution timed out after " ++ toString TIMEOUT_MS ++ "ms")) := by
  have hto : ∀ a : AttemptBehavior, TIMEOUT_MS ≤ a.duration →
      raceAttempt a
        = Except.error ("Tool execution timed out after " ++ toString TIMEOUT_MS ++ "ms") := by
    intro a ha
    simp [raceAttempt, ha]
  cases h1 : raceAttempt (attempts 1) with
  | ok r1 =>
      have htrace : forwardWithRetry attempts
          = { attemptsUsed := 1, delays := [], result := Except.ok r1 } := by
        simp [forwardWithRetry, retryGo, MAX_RETRIES, h1]
      rw [htrace]
      refine ⟨by simp [MAX_RETRIES], by simp, ?_, ?_, hto⟩
      · intro e he
        simp at he
      · intro r hr
        simp at hr
        subst hr
        refine ⟨h1, ?_⟩
        intro i hi1 hi2
        simp at hi2
        omega
  | error e1 =>
      cases h2 : raceAttempt (attempts 2) with
      | ok r2 =>
          have htrace : forwardWithRetry attempts
              = { attemptsUsed := 2, delays := [1000], result := Except.ok r2 } := by
            simp [forwardWithRetry, retryGo, MAX_RETRIES, h1, h2]
          rw [htrace]
          refine ⟨by simp [MAX_RETRIES], by norm_num [List.range'], ?_, ?_, hto⟩
          · intro e he
            simp at he
          · intro r hr
            simp at hr
            subst hr
            refine ⟨h2, ?_⟩
            intro i hi1 hi2
            simp at hi2
            have : i = 1 := by omega
            subst this
            exact ⟨e1, h1⟩
      | error e2 =>
          cases h3 : raceAttempt (attempts 3) with
          | ok r3 =>
              have htrace : forwardWithRetry attempts
                  = { attemptsUsed := 3, delays := [1000, 2000], result := Except.ok r3 } := by
                simp [forwardWithRetry, retryGo, MAX_RETRIES, h1, h2, h3]
              rw [htrace]
              refine ⟨by simp [MAX_RETRIES], by norm_num [List.range'], ?_, ?_, hto⟩
              · intro e he
                simp at he
              · intro r hr
                simp at hr
                subst hr
                refine ⟨h3, ?_⟩
                intro i hi1 hi2
                simp at hi2
                interval_cases i
                · exact ⟨e1, h1⟩
                · exact ⟨e2, h2⟩
          | error e3 =>
              have htrace : forwardWithRetry attempts
                  = { attemptsUsed := 3, delays := [1000, 2000], result := Except.error e3 } := by
                simp [forwardWithRetry, retryGo, MAX_RETRIES, h1, h2, h3]
              rw [htrace]
              refine ⟨by simp [MAX_RETRIES], by norm_num [List.range'], ?_, ?_, hto⟩
              · intro e he
                simp at he
                subst he
                refine ⟨by simp [MAX_RETRIES], by simp [MAX_RETRIES, h3], ?_⟩
                intro i hi1 hi2
                simp [MAX_RETRIES] at hi2
                interval_cases i
                · exact ⟨e1, h1⟩
                · exact ⟨e2, h2⟩
                · exact ⟨e3, h3⟩
              · intro r hr
                simp at hr

/-- Witness for C3 at a concrete attempt behaviour (first attempt times
out, second succeeds): the loop uses two attempts. -/
theorem callTool_retry_bounded_witness :
    (forwardWithRetry (fun i => if i = 1 then { duration := 40000, outcome := Except.ok "late" }
        else { duration := 5, outcome := Except.ok "fine" })).attemptsUsed ≤ MAX_RETRIES + 1 :=
  (callTool_retry_bounded
    (fun i => if i = 1 then { duration := 40000, outcome := Except.ok "late" }
        else { duration := 5, outcome := Except.ok "fine" })).1

/-! ## Claim C4 — tool replacement is wholesale and atomic -/

/-- C4: `updateTools` is atomic and wholesale.  Whatever insert (if any)
fails mid-transaction, the resulting table is either exactly the old state
(rollback) or the old table minus every row of this server plus exactly the
given rows (commit) — never a mix; with no failure it always commits; and
Scenario C holds: after registering `alpha` with tools `[x]` and then again
with tools `[y]`, `getAllTools` returns only `y` for `alpha`. -/
theorem updateTools_atomic_wholesale :
    (∀ (st : RegistryState) (serverId : Nat) (tools : List ToolSpec) (failAt : Option Nat),
        RegistryService.updateTools st serverId tools failAt = st
        ∨ RegistryService.updateTools st serverId tools failAt
            = { st with tools := st.tools.filter (fun t => ¬ t.server_id = serverId)
                                  ++ tools.map (toolRow serverId) })
    ∧ (∀ (st : RegistryState) (serverId : Nat) (tools : List ToolSpec),
        RegistryService.updateTools st serverId tools none
          = { st with tools := st.tools.filter (fun t => ¬ t.server_id = serverId)
                                ++ tools.map (toolRow serverId) })
    ∧ RegistryService.getAllTools scenarioCState
        = [{ tool_name := "y", description := "", input_schema := "null",
             server_name := "alpha", transport_type := "stdio" }] := by
  refine ⟨?_, ?_, by decide⟩
  · intro st serverId tools failAt
    unfold RegistryService.updateTools
    rcases insertToolsLoop_cases serverId tools
        { st with tools := st.tools.filter (fun t => ¬ t.server_id = serverId) } 0 failAt
        with hr | hr
    · left
      simp only [hr]
    · right
      simp only [hr]
  · intro st serverId tools
    unfold RegistryService.updateTools
    simp only [insertToolsLoop_none serverId tools
        { st with tools := st.tools.filter (fun t => ¬ t.server_id = serverId) } 0]

/-! ## Claim C7 — API key verification -/

/-- C7: `PolicyService.verifyApiKey` returns a record only when a row with
that key exists and is active; when every row carrying the key is inactive
(in particular when no row carries it at all), it returns `none`, so a
deactivated key is indistinguishable from an unknown one. -/
theorem verifyApiKey_active_only (apiKeys : List ApiKey) (k : String) :
    (∀ r, PolicyService.verifyApiKey apiKeys k = some r → r.key = k ∧ r.is_active = true)
    ∧ ((∀ r ∈ apiKeys, r.key = k → r.is_active = false) →
        PolicyService.verifyApiKey apiKeys k = none) := by
  constructor
  · intro r hr
    have h := List.find?_some hr
    simpa using h
  · intro h
    exact verifyApiKey_none_of_all_inactive apiKeys k h

/-- Witness for C7 at a concrete table: a single row holding the key but
deactivated yields `none`. -/
theorem verifyApiKey_active_only_witness :
    PolicyService.verifyApiKey
      [{ id := 1, key := "sk-old", name := "Old", role := "user", is_active := false }]
      "sk-old" = none :=
  (verifyApiKey_active_only
      [{ id := 1, key := "sk-old", name := "Old", role := "user", is_active := false }]
      "sk-old").2 (by decide)

/-! ## Claim C8 — unauthenticated session-open is rejected without side effects -/

/-- C8: when the bearer secret of a session-open request is missing, or every
api-key row carrying it is inactive (covering invalid and deactivated keys),
the GET /sse handler answers 401 and the state is unchanged: no session is
added to the session table and no call-log row is written. -/
theorem sseOpen_rejects_unauthenticated (st : SessionState) (apiKeys : List ApiKey)
    (req : SseRequest) (freshId : String)
    (h : extractApiKey req = "" ∨ ∀ r ∈ apiKeys, r.key = extractApiKey req → r.is_active = false) :
    sseOpen st apiKeys req freshId = (401, st) := by
  unfold sseOpen
  rcases h with h | h
  · simp [h]
  · by_cases he : extractApiKey req = ""
    · simp [he]
    · simp [he, verifyApiKey_none_of_all_inactive apiKeys (extractApiKey req) h]

/-- Witness for C8: a request presenting a deactivated key over the
`Authorization: Bearer` header is rejected with 401 and the empty state is
untouched. -/
theorem sseOpen_rejects_unauthenticated_witness :
    sseOpen { sessions := [], log := [] }
      [{ id := 1, key := "sk-old", name := "Old", role := "user", is_active := false }]
      { authHeader := some "Bearer sk-old", queryKey := none } "sess-1"
      = (401, { sessions := [], log := [] }) :=
  sseOpen_rejects_unauthenticated { sessions := [], log := [] }
    [{ id := 1, key := "sk-old", name := "Old", role := "user", is_active := false }]
    { authHeader := some "Bearer sk-old", queryKey := none } "sess-1"
    (Or.inr (by decide))

/-! ## Claim C9 — downstream connection cache race -/

/-- C9 (demonstration of the code bug): with an empty cache, the schedule
that lets both calls read the cache before either connect resolves leaves
both calls in `connecting` simultaneously (two connect attempts in flight),
and finishes with two `connectToDownstream` invocations started and both
calls using their own, distinct connection — violating the required
invariant of at most one live connection per server name. -/
theorem downstreamClients_race_duplicate_connections :
    (runConnRace connRaceInit [true, false]).pc1 = ConnPc.connecting
    ∧ (runConnRace connRaceInit [true, false]).pc2 = ConnPc.connecting
    ∧ (runConnRace connRaceInit [true, false]).connectsStarted = 2
    ∧ (runConnRace connRaceInit [true, false, true, false]).connectsStarted = 2
    ∧ (runConnRace connRaceInit [true, false, true, false]).pc1 = ConnPc.done false
    ∧ (runConnRace connRaceInit [true, false, true, false]).pc2 = ConnPc.done false := by
  decide

/-! ## Claim C10 — native schemas never mark arguments required -/

/-- C10: because the reflection code tests `!val.isOptional` on the
`isOptional` *member* (a method on every Zod type, hence always truthy)
instead of invoking it, no property is ever pushed onto `required`, so the
produced document always omits the `required` key and every argument of
every native tool is advertised as optional. -/
theorem zodToJsonSchema_required_always_omitted (s : Option ZodObjectSchema)
    (h : ∀ sch ∈ s, ∀ fields ∈ sch.shape, ∀ f ∈ fields, f.isOptionalTruthy = true) :
    (GatewayService.zodToJsonSchema s).required = none := by
  match s with
  | none => rfl
  | some sch =>
    unfold GatewayService.zodToJsonSchema
    by_cases hd : sch.hasDef
    · simp only [hd, not_true_eq_false, if_false]
      match hsh : sch.shape with
      | none => rfl
      | some fields =>
        have hall : ∀ f ∈ fields, f.isOptionalTruthy = true := by
          intro f hf
          exact h sch rfl fields hsh f hf
        have hfilter :
            fields.filter (fun f => f.typeName ≠ "ZodOptional" && !f.isOptionalTruthy) = [] := by
          apply List.filter_eq_nil_iff.mpr
          intro f hf
          simp [hall f hf]
        simp only [hfilter]
        simp
    · simp [hd]

/-- Witness for C10: a schema with one mandatory string field (its
`isOptional` member truthy, as on any genuine Zod type) still yields a
document with the `required` key omitted. -/
theorem zodToJsonSchema_required_always_omitted_witness :
    (GatewayService.zodToJsonSchema
      (some { hasDef := true,
              shape := some [{ key := "symbol", typeName := "ZodString",
                               descriptionStr := "stock symbol", isOptionalTruthy := true }] })).required
      = none :=
  zodToJsonSchema_required_always_omitted
    (some { hasDef := true,
            shape := some [{ key := "symbol", typeName := "ZodString",
                             descriptionStr := "stock symbol", isOptionalTruthy := true }] })
    (by intro sch hs fields hf f hmem
        simp only [Option.mem_def, Option.some.injEq] at hs hf
        subst hs
        simp at hf
        subst hf
        simp at hmem
        subst hmem
        rfl)

end KDexter
